import Mathlib

/-!
Verification of the meme-hunter-bot trading core against its specification.

The Python sources are shallowly embedded in Lean:
`Decimal` and `float` values become `ℚ` (the arithmetic the claims exercise
is exact), Python dicts become insertion-ordered association lists, and
exception-raising code becomes functions returning an explicit success flag
(the sources catch every exception at the function boundary and report
`success: False`).

Embedded modules:
* `src/src/simulation/sim_trader.py` — `SimulatedTrader`
* `src/src/risk_calculator.py` — `RiskCalculator` weighted score
* `src/backup_working_version/src/dex_integrations.py` — `DEXManager`
* `src/backups/successful_config_20231203/src/solana_trader.py` —
  `analyze_exit_opportunity`
-/

namespace MemeHunter

/-! ## SimulatedTrader (src/src/simulation/sim_trader.py)

`self.positions` is a dict token → position-dict; we embed it as an
insertion-ordered association list.  `execute_trade` wraps its body in
`try/except` and returns `{'success': False}` on any raised `ValueError`,
with no state mutated before the raise, so failures return the input state
unchanged together with `false`. -/

inductive Action where
  | buy
  | sell
deriving DecidableEq, Repr

/-- The position dict created by `execute_trade` on a BUY: amount,
entry/current price, position size, the precomputed stop-loss price and the
three take-profit prices, and the `moonbag_reserved` flag. -/
structure Position where
  amount : ℚ
  entry_price : ℚ
  current_price : ℚ
  position_size : ℚ
  stop_loss : ℚ
  tp_first : ℚ
  tp_second : ℚ
  tp_moonbag : ℚ
  moonbag_reserved : Bool
deriving DecidableEq, Repr

/-- One record appended to `self.trade_history` on a SELL. -/
structure TradeRecord where
  token : String
  amount : ℚ
  entry_price : ℚ
  exit_price : ℚ
  profit : ℚ
deriving DecidableEq, Repr

/-- The mutable attributes of `SimulatedTrader`. -/
structure TraderState where
  initial_balance : ℚ
  current_balance : ℚ
  max_position_size : ℚ
  positions : List (String × Position)
  trade_history : List TradeRecord
  wins : Nat
  losses : Nat
  total_trades : Nat
deriving DecidableEq, Repr

/-- `self.stop_loss_pct = Decimal('0.08')`. -/
def stop_loss_pct : ℚ := 8 / 100

/-- `self.take_profit_levels['first'] = Decimal('1.30')`. -/
def tp_first_level : ℚ := 130 / 100

/-- `self.take_profit_levels['second'] = Decimal('1.80')`. -/
def tp_second_level : ℚ := 180 / 100

/-- `self.take_profit_levels['moonbag'] = Decimal('5.00')`. -/
def tp_moonbag_level : ℚ := 500 / 100

/-- `SimulatedTrader.__init__`: balance, empty positions/history,
`max_position_size = initial_balance * 0.10`. -/
def initTrader (initial_balance : ℚ) : TraderState :=
  { initial_balance := initial_balance
    current_balance := initial_balance
    max_position_size := initial_balance * (10 / 100)
    positions := []
    trade_history := []
    wins := 0
    losses := 0
    total_trades := 0 }

/-- Dict lookup `self.positions[token]` / `token in self.positions`. -/
def lookupPos : List (String × Position) → String → Option Position
  | [], _ => none
  | (k, v) :: t, key => if k = key then some v else lookupPos t key

/-- Dict assignment `self.positions[token] = p`: replace in place if the
key exists, else append (Python dicts preserve insertion order). -/
def setPos : List (String × Position) → String → Position → List (String × Position)
  | [], key, p => [(key, p)]
  | (k, v) :: t, key, p => if k = key then (k, p) :: t else (k, v) :: setPos t key p

/-- Dict deletion `del self.positions[token]`. -/
def delPos : List (String × Position) → String → List (String × Position)
  | [], _ => []
  | (k, v) :: t, key => if k = key then t else (k, v) :: delPos t key

/-- `SimulatedTrader.execute_trade`.  Returns the post-state and the
`success` flag of the returned dict.  BUY raises (→ `false`, state
unchanged) when the cost exceeds the balance or the size exceeds
`max_position_size`; SELL raises when the token has no open position.
A successful SELL credits `position['amount'] * price` — the full
remaining amount of the stored position, not the `amount` argument —
records the trade and deletes the position. -/
def execute_trade (s : TraderState) (token : String) (action : Action)
    (amount price : ℚ) : TraderState × Bool :=
  match action with
  | .buy =>
    if s.current_balance < amount * price then (s, false)
    else
      let position_size := amount * price
      if s.max_position_size < position_size then (s, false)
      else
        ({ s with
            current_balance := s.current_balance - position_size
            positions := setPos s.positions token
              { amount := amount
                entry_price := price
                current_price := price
                position_size := position_size
                stop_loss := price * (1 - stop_loss_pct)
                tp_first := price * tp_first_level
                tp_second := price * tp_second_level
                tp_moonbag := price * tp_moonbag_level
                moonbag_reserved := false } }, true)
  | .sell =>
    match lookupPos s.positions token with
    | none => (s, false)
    | some position =>
      let profit := (price - position.entry_price) * position.amount
      ({ s with
          current_balance := s.current_balance + position.amount * price
          wins := if position.entry_price < price then s.wins + 1 else s.wins
          losses := if position.entry_price < price then s.losses else s.losses + 1
          total_trades := s.total_trades + 1
          trade_history := s.trade_history ++
            [{ token := token
               amount := position.amount
               entry_price := position.entry_price
               exit_price := price
               profit := profit }]
          positions := delPos s.positions token }, true)

/-- Which rule of `update_positions` fired for a token on one update:
the stop-loss branch (`current_price <= position['stop_loss']`, checked
first, with `continue`) or the take-profit tier branch. -/
inductive ExitReason where
  | stopLoss
  | takeProfit
deriving DecidableEq, Repr

/-- Write-back of the local `position` dict reference: in Python the dict
stored in `self.positions[token]` and the loop-local `position` are the
same object, so a mutation of the local is visible in the map exactly
while the entry is still present. -/
def syncPos (s : TraderState) (token : String) (p : Position) : TraderState :=
  match lookupPos s.positions token with
  | some _ => { s with positions := setPos s.positions token p }
  | none => s

/-- The body of `SimulatedTrader.update_positions` for one `(token, price)`
entry of `market_data`.  Mirrors the Python control flow: update
`current_price`; if the stop loss is breached, SELL and `continue`;
otherwise, when `moonbag_reserved` is false, run the three take-profit
checks in order, each selling through `execute_trade` and then mutating the
local `position` reference.  Also reports which rule fired (stop-loss
versus take-profit tiers), read off from the branch taken. -/
def update_one (s : TraderState) (token : String) (price : ℚ) :
    TraderState × Option ExitReason :=
  match lookupPos s.positions token with
  | none => (s, none)
  | some pos0 =>
    let p0 := { pos0 with current_price := price }
    let s0 := { s with positions := setPos s.positions token p0 }
    if price ≤ p0.stop_loss then
      ((execute_trade s0 token .sell p0.amount price).1, some .stopLoss)
    else if p0.moonbag_reserved then (s0, none)
    else
      let fired1 := p0.tp_first ≤ price
      let sp1 :=
        if p0.tp_first ≤ price then
          let sell_amount := p0.amount * (40 / 100)
          let sA := (execute_trade s0 token .sell sell_amount price).1
          let p := { p0 with amount := p0.amount - sell_amount }
          (syncPos sA token p, p)
        else (s0, p0)
      let fired2 := sp1.2.tp_second ≤ price
      let sp2 :=
        if sp1.2.tp_second ≤ price then
          let sell_amount := sp1.2.amount * (40 / 100)
          let sB := (execute_trade sp1.1 token .sell sell_amount price).1
          let p := { sp1.2 with amount := sp1.2.amount - sell_amount, moonbag_reserved := true }
          (syncPos sB token p, p)
        else sp1
      let fired3 := sp2.2.tp_moonbag ≤ price
      let s3 :=
        if sp2.2.tp_moonbag ≤ price then
          (execute_trade sp2.1 token .sell sp2.2.amount price).1
        else sp2.1
      (s3, if fired1 || fired2 || fired3 then some .takeProfit else none)

/-- `SimulatedTrader.update_positions`: fold `update_one` over the
`market_data` items. -/
def update_positions (s : TraderState) (market_data : List (String × ℚ)) : TraderState :=
  market_data.foldl (fun st td => (update_one st td.1 td.2).1) s

/-! ## DEXManager (src/backup_working_version/src/dex_integrations.py)

`get_all_prices` builds, per pair, a dict venue → price keeping only
fetches that returned a positive price; a venue whose fetch raised is
logged and skipped.  `get_arbitrage_opportunities` then takes, per pair
with at least two venues, the `min`/`max` items by price and emits an
opportunity when the profit percentage clears the threshold.  Python's
`min`/`max` over `dict.items()` return the first item (in insertion order)
attaining the extreme value. -/

/-- An element of the list returned by `get_arbitrage_opportunities`
(the `pair` field is carried separately by the pair-indexed variant). -/
structure Opp where
  buy_dex : String
  sell_dex : String
  buy_price : ℚ
  sell_price : ℚ
  profit_percentage : ℚ
deriving DecidableEq, Repr

/-- `min(dex_prices.items(), key=lambda x: x[1])`: fold keeping the current
best, replacing it only on a strictly smaller price — hence the first item
attaining the minimum wins.  `none` on the empty dict (Python would raise,
but callers guard with `len < 2`). -/
def pyMin (l : List (String × ℚ)) : Option (String × ℚ) :=
  l.foldl
    (fun acc x =>
      match acc with
      | none => some x
      | some b => if x.2 < b.2 then some x else some b)
    none

/-- `max(dex_prices.items(), key=lambda x: x[1])`: first item attaining the
maximum. -/
def pyMax (l : List (String × ℚ)) : Option (String × ℚ) :=
  l.foldl
    (fun acc x =>
      match acc with
      | none => some x
      | some b => if b.2 < x.2 then some x else some b)
    none

/-- The per-pair body of `DEXManager.get_arbitrage_opportunities`: skip
pairs with fewer than two venue quotes, otherwise take the min- and
max-price items, compute
`profit_percentage = ((max - min) / min) * 100` and emit the opportunity
when it reaches `min_profit_percentage`. -/
def detect_pair (dex_prices : List (String × ℚ)) (min_profit_percentage : ℚ) :
    Option Opp :=
  if dex_prices.length < 2 then none
  else
    match pyMin dex_prices, pyMax dex_prices with
    | some mn, some mx =>
      let profit_percentage := ((mx.2 - mn.2) / mn.2) * 100
      if min_profit_percentage ≤ profit_percentage then
        some { buy_dex := mn.1, sell_dex := mx.1, buy_price := mn.2,
               sell_price := mx.2, profit_percentage := profit_percentage }
      else none
    | _, _ => none

/-- `DEXManager.get_arbitrage_opportunities` over the whole price map:
one optional opportunity per pair, appended in pair order. -/
def get_arbitrage_opportunities (prices : List (String × List (String × ℚ)))
    (min_profit_percentage : ℚ) : List (String × Opp) :=
  prices.foldl
    (fun acc p =>
      match detect_pair p.2 min_profit_percentage with
      | some o => acc ++ [(p.1, o)]
      | none => acc)
    []

/-- The per-pair inner loop of `DEXManager.get_all_prices`: each venue's
fetch either raised (modelled `Except.error`) — the venue is logged and
skipped — or returned a price, kept only when `price > 0`. -/
def get_pair_prices (results : List (String × Except String ℚ)) :
    List (String × ℚ) :=
  results.foldl
    (fun acc r =>
      match r.2 with
      | .ok price => if 0 < price then acc ++ [(r.1, price)] else acc
      | .error _ => acc)
    []

/-- `DEXManager.get_liquidity_info`: same partial-failure pattern for the
per-venue liquidity fetches, kept only when `liq > 0`. -/
def get_liquidity_info (results : List (String × Except String ℚ)) :
    List (String × ℚ) :=
  results.foldl
    (fun acc r =>
      match r.2 with
      | .ok liq => if 0 < liq then acc ++ [(r.1, liq)] else acc
      | .error _ => acc)
    []

/-! ## RiskCalculator (src/src/risk_calculator.py)

Only the weighted combination in `calculate_risk_score` is at issue: the
five component risks are combined as `Σ component * weight`. -/

/-- The `self.weights` dict of `RiskCalculator.__init__`. -/
structure RiskWeights where
  volatility : ℚ
  liquidity : ℚ
  spread : ℚ
  volume : ℚ
  smart_contract : ℚ
deriving DecidableEq, Repr

/-- Default weights: volatility 0.3, liquidity 0.25, spread 0.15,
volume 0.15, smart_contract 0.15. -/
def default_weights : RiskWeights :=
  { volatility := 3 / 10
    liquidity := 1 / 4
    spread := 3 / 20
    volume := 3 / 20
    smart_contract := 3 / 20 }

/-- The `total_risk` expression of `RiskCalculator.calculate_risk_score`. -/
def total_risk (w : RiskWeights)
    (volatility_risk liquidity_risk spread_risk volume_risk smart_contract_risk : ℚ) : ℚ :=
  volatility_risk * w.volatility +
  liquidity_risk * w.liquidity +
  spread_risk * w.spread +
  volume_risk * w.volume +
  smart_contract_risk * w.smart_contract

/-! ## analyze_exit_opportunity
(src/backups/successful_config_20231203/src/solana_trader.py)

`should_exit` starts `False` and is set by four independent `if`s:
take-profit, stop-loss, trailing stop, max hold time; each appends its
reason.  The embedding returns the four condition flags and the resulting
`should_exit` disjunction. -/

/-- The `trading_config['exit']` entries read by `analyze_exit_opportunity`. -/
structure ExitConfig where
  take_profit : ℚ
  stop_loss : ℚ
  trailing_stop : ℚ
  max_hold_time : ℚ
deriving DecidableEq, Repr

/-- The exit decision with the individual condition flags (one per
appended reason string in the source). -/
structure ExitAnalysis where
  should_exit : Bool
  take_profit_hit : Bool
  stop_loss_hit : Bool
  trailing_stop_hit : Bool
  max_hold_hit : Bool
deriving DecidableEq, Repr

/-- `analyze_exit_opportunity`:
`price_change = (current_price - entry_price) / entry_price`;
take-profit when `price_change >= cfg.take_profit`; stop-loss when
`price_change <= -cfg.stop_loss`; trailing stop when
`(trailing_high - current_price) / trailing_high >= cfg.trailing_stop`;
max hold when `hold_time >= cfg.max_hold_time`; exit when any holds. -/
def analyze_exit_opportunity (cfg : ExitConfig)
    (entry_price current_price trailing_high hold_time : ℚ) : ExitAnalysis :=
  let price_change := (current_price - entry_price) / entry_price
  let take_profit : Bool := decide (cfg.take_profit ≤ price_change)
  let stop_loss : Bool := decide (price_change ≤ -cfg.stop_loss)
  let trailing_stop_hit : Bool :=
    decide (cfg.trailing_stop ≤ (trailing_high - current_price) / trailing_high)
  let max_hold : Bool := decide (cfg.max_hold_time ≤ hold_time)
  { should_exit := take_profit || stop_loss || trailing_stop_hit || max_hold
    take_profit_hit := take_profit
    stop_loss_hit := stop_loss
    trailing_stop_hit := trailing_stop_hit
    max_hold_hit := max_hold }

/-! ## Concrete fixtures used by witnesses and counterexamples -/

/-- Trader state for the `sell_is_full_exit` witness: 2 tokens bought at
price 10 on a fresh balance of 500. -/
def c10state : TraderState := (execute_trade (initTrader 500) "t" Action.buy 2 10).1

/-- The position held by `c10state`. -/
def c10pos : Position :=
  { amount := 2, entry_price := 10, current_price := 10, position_size := 20,
    stop_loss := 10 * (1 - stop_loss_pct), tp_first := 10 * tp_first_level,
    tp_second := 10 * tp_second_level, tp_moonbag := 10 * tp_moonbag_level,
    moonbag_reserved := false }

/-- Trader state for the `stop_loss_precedence` witness: one position
entered at price 0, so that its stop-loss price (0) and first take-profit
price (0) are both reached by the update price 0 simultaneously. -/
def c4state : TraderState := (execute_trade (initTrader 500) "t" Action.buy 1 0).1

/-- The position held by `c4state`. -/
def c4pos : Position :=
  { amount := 1, entry_price := 0, current_price := 0, position_size := 0,
    stop_loss := 0, tp_first := 0, tp_second := 0, tp_moonbag := 0,
    moonbag_reserved := false }

/-- The state after buying 1 token at price 10 with balance 500 (balance
490, tier prices 13 / 18 / 50) and then processing the market price 13.0 —
exactly the first take-profit tier. -/
def c1final : TraderState :=
  update_positions (execute_trade (initTrader 500) "t" Action.buy 1 10).1 [("t", 13)]

/-- The quote map for the tie-break counterexample: venues "B" and "A"
both quote the minimum price 1, with "B" first in iteration order. -/
def tieQuotes : List (String × ℚ) := [("B", 1), ("A", 1), ("C", 2)]

/-- The quote/liquidity fixture for the liquidity-floor counterexample:
venue "X" quotes the low price but its liquidity fetch fails, so it has no
liquidity entry at all. -/
def illiquidFetch : List (String × Except String ℚ) :=
  [("X", Except.error "timeout"), ("Y", Except.ok 5000)]

/-- The weight configuration refuting the unrestricted claim: the five
weights sum to 1.0 but are not all nonnegative. -/
def spiked_weights : RiskWeights :=
  { volatility := 2, liquidity := -(1 / 4), spread := -(1 / 4),
    volume := -(1 / 4), smart_contract := -(1 / 4) }

/-- The exit configuration for the trailing-stop counterexample:
take-profit at +50%, stop-loss at −10%, trailing stop at 15% retracement,
max hold one hour. -/
def c6cfg : ExitConfig :=
  { take_profit := 1 / 2, stop_loss := 1 / 10, trailing_stop := 3 / 20,
    max_hold_time := 3600 }

/-! ## Association-list lemmas (dict semantics) -/

theorem lookupPos_setPos_self (l : List (String × Position)) (k : String) (p : Position) :
    lookupPos (setPos l k p) k = some p := by
  induction l with
  | nil => simp [setPos, lookupPos]
  | cons h t ih =>
    by_cases hk : h.1 = k
    · simp [setPos, hk, lookupPos]
    · simp [setPos, hk, lookupPos, ih]

theorem lookupPos_eq_none_of_not_mem (l : List (String × Position)) (k : String)
    (h : k ∉ l.map Prod.fst) : lookupPos l k = none := by
  induction l with
  | nil => rfl
  | cons x t ih =>
    simp only [List.map_cons, List.mem_cons] at h
    push_neg at h
    simp only [lookupPos]
    rw [if_neg (fun hx => h.1 hx.symm)]
    exact ih h.2

theorem keys_setPos (l : List (String × Position)) (k : String) (p : Position) :
    (setPos l k p).map Prod.fst =
      if k ∈ l.map Prod.fst then l.map Prod.fst else l.map Prod.fst ++ [k] := by
  induction l with
  | nil => simp [setPos]
  | cons x t ih =>
    by_cases hx : x.1 = k
    · simp [setPos, hx]
    · have hkx : ¬k = x.1 := fun h => hx h.symm
      by_cases hk : k ∈ t.map Prod.fst
      · simp [setPos, hx, ih, hk, hkx]
      · simp [setPos, hx, ih, hk, hkx]

theorem nodup_keys_setPos (l : List (String × Position)) (k : String) (p : Position)
    (h : (l.map Prod.fst).Nodup) : ((setPos l k p).map Prod.fst).Nodup := by
  rw [keys_setPos]
  by_cases hk : k ∈ l.map Prod.fst
  · simpa [hk] using h
  · rw [if_neg hk, ← List.concat_eq_append]
    exact List.Nodup.concat hk h

theorem lookupPos_delPos_self (l : List (String × Position)) (k : String)
    (h : (l.map Prod.fst).Nodup) : lookupPos (delPos l k) k = none := by
  induction l with
  | nil => rfl
  | cons x t ih =>
    simp only [List.map_cons, List.nodup_cons] at h
    by_cases hx : x.1 = k
    · simp only [delPos, if_pos hx]
      exact lookupPos_eq_none_of_not_mem t k (hx ▸ h.1)
    · simp only [delPos, if_neg hx, lookupPos]
      exact ih h.2

/-! ## Claims about SimulatedTrader -/

/-- **C9.** A failing BUY — cost exceeding the balance, or position size
exceeding `max_position_size` — raises `ValueError`, which
`execute_trade` catches: the call returns `success: False` with the
trader state (balance and open positions) exactly unchanged. -/
theorem buy_failure_no_side_effects (s : TraderState) (token : String) (amount price : ℚ)
    (h : s.current_balance < amount * price ∨ s.max_position_size < amount * price) :
    execute_trade s token Action.buy amount price = (s, false) := by
  rcases h with h | h
  · simp [execute_trade, h]
  · by_cases hb : s.current_balance < amount * price
    · simp [execute_trade, hb]
    · simp [execute_trade, hb, h]

/-- **C9 witness.** An attempted BUY of 100 tokens at price 10 on a fresh
trader with balance 500 (cost 1000 > 500) fails and leaves the state
unchanged. -/
theorem buy_failure_no_side_effects_witness :
    ((initTrader 500).current_balance < 100 * 10 ∨
      (initTrader 500).max_position_size < 100 * 10) ∧
    execute_trade (initTrader 500) "t" Action.buy 100 10 = (initTrader 500, false) :=
  ⟨Or.inl (by norm_num [initTrader]),
    buy_failure_no_side_effects (initTrader 500) "t" 100 10
      (Or.inl (by norm_num [initTrader]))⟩

/-- **C10.** A successful SELL ignores the `amount` argument: it credits
the balance with the stored position's entire remaining `amount` times the
sell price, deletes the token's position, and returns the same result for
every value of the `amount` argument — a fractional sell request behaves
as a full exit. -/
theorem sell_is_full_exit (s : TraderState) (token : String) (amount amount' price : ℚ)
    (pos : Position) (hnd : (s.positions.map Prod.fst).Nodup)
    (hpos : lookupPos s.positions token = some pos) :
    (execute_trade s token Action.sell amount price).2 = true ∧
    (execute_trade s token Action.sell amount price).1.current_balance =
      s.current_balance + pos.amount * price ∧
    lookupPos (execute_trade s token Action.sell amount price).1.positions token = none ∧
    execute_trade s token Action.sell amount price =
      execute_trade s token Action.sell amount' price := by
  refine ⟨?_, ?_, ?_, ?_⟩ <;>
    simp [execute_trade, hpos, lookupPos_delPos_self s.positions token hnd]

/-- **C10 witness.** On a trader holding 2 tokens bought at price 10, a
SELL request for only 0.5 token at price 11 succeeds, credits the full
2·11, and closes the position. -/
theorem sell_is_full_exit_witness :
    ((c10state.positions.map Prod.fst).Nodup ∧
      lookupPos c10state.positions "t" = some c10pos) ∧
    (execute_trade c10state "t" Action.sell (1/2) 11).2 = true ∧
    (execute_trade c10state "t" Action.sell (1/2) 11).1.current_balance =
      c10state.current_balance + c10pos.amount * 11 ∧
    lookupPos (execute_trade c10state "t" Action.sell (1/2) 11).1.positions "t" = none :=
  ⟨⟨by norm_num [c10state, execute_trade, initTrader, setPos],
    by norm_num [c10state, c10pos, execute_trade, initTrader, setPos, lookupPos]⟩,
    (sell_is_full_exit c10state "t" (1/2) (1/2) 11 c10pos
      (by norm_num [c10state, execute_trade, initTrader, setPos])
      (by norm_num [c10state, c10pos, execute_trade, initTrader, setPos, lookupPos])).1,
    (sell_is_full_exit c10state "t" (1/2) (1/2) 11 c10pos
      (by norm_num [c10state, execute_trade, initTrader, setPos])
      (by norm_num [c10state, c10pos, execute_trade, initTrader, setPos, lookupPos])).2.1,
    (sell_is_full_exit c10state "t" (1/2) (1/2) 11 c10pos
      (by norm_num [c10state, execute_trade, initTrader, setPos])
      (by norm_num [c10state, c10pos, execute_trade, initTrader, setPos, lookupPos])).2.2.1⟩

/-- **C4.** On a single price update where the stop-loss condition holds
(and even if a take-profit tier threshold holds simultaneously), the
stop-loss branch of `update_positions` fires first (`continue` skips every
tier check): the reported reason is `stopLoss`, never `takeProfit`, and the
position is closed (removed from the active set). -/
theorem stop_loss_precedence (s : TraderState) (token : String) (price : ℚ)
    (pos : Position) (hnd : (s.positions.map Prod.fst).Nodup)
    (hpos : lookupPos s.positions token = some pos)
    (hsl : price ≤ pos.stop_loss) (htp : pos.tp_first ≤ price) :
    (update_one s token price).2 = some ExitReason.stopLoss ∧
    (update_one s token price).2 ≠ some ExitReason.takeProfit ∧
    lookupPos (update_one s token price).1.positions token = none := by
  have hstop : ({ pos with current_price := price } : Position).stop_loss = pos.stop_loss := rfl
  refine ⟨?_, ?_, ?_⟩ <;>
    simp [update_one, hpos, hstop, hsl, execute_trade,
      lookupPos_setPos_self, lookupPos_delPos_self _ token (nodup_keys_setPos _ _ _ hnd)]

/-- **C4 witness.** With entry price 0, the update price 0 satisfies the
stop-loss condition and the first-tier condition at once; the fired rule is
`stopLoss` and the position is closed. -/
theorem stop_loss_precedence_witness :
    ((c4state.positions.map Prod.fst).Nodup ∧
      lookupPos c4state.positions "t" = some c4pos ∧
      (0 : ℚ) ≤ c4pos.stop_loss ∧ c4pos.tp_first ≤ (0 : ℚ)) ∧
    (update_one c4state "t" 0).2 = some ExitReason.stopLoss ∧
    lookupPos (update_one c4state "t" 0).1.positions "t" = none :=
  ⟨⟨by norm_num [c4state, execute_trade, initTrader, setPos],
    by norm_num [c4state, c4pos, execute_trade, initTrader, setPos, lookupPos,
      stop_loss_pct, tp_first_level, tp_second_level, tp_moonbag_level],
    by norm_num [c4pos], by norm_num [c4pos]⟩,
    (stop_loss_precedence c4state "t" 0 c4pos
      (by norm_num [c4state, execute_trade, initTrader, setPos])
      (by norm_num [c4state, c4pos, execute_trade, initTrader, setPos, lookupPos,
        stop_loss_pct, tp_first_level, tp_second_level, tp_moonbag_level])
      (by norm_num [c4pos]) (by norm_num [c4pos])).1,
    (stop_loss_precedence c4state "t" 0 c4pos
      (by norm_num [c4state, execute_trade, initTrader, setPos])
      (by norm_num [c4state, c4pos, execute_trade, initTrader, setPos, lookupPos,
        stop_loss_pct, tp_first_level, tp_second_level, tp_moonbag_level])
      (by norm_num [c4pos]) (by norm_num [c4pos])).2.2⟩

/-- **C1 (failing-input evaluation).** At the first take-profit tier the
code is supposed to sell 40% of the position (`sell_amount = 0.4`,
comment "Sell 40% at first target"), leaving 60% open and crediting
`0.4·13 = 5.2`.  Instead `execute_trade` sells the whole position: the
balance becomes `490 + 1·13 = 503` (not `490 + 5.2`), the position is
deleted from the active set, and the trade history records a sell of the
full amount 1 — the tier-fraction accounting of the position invariant is
violated. -/
theorem tier_accounting_bug_eval :
    c1final.current_balance = 503 ∧
    ¬(c1final.current_balance = 490 + (40 / 100) * 13) ∧
    lookupPos c1final.positions "t" = none ∧
    c1final.trade_history.map TradeRecord.amount = [1] := by
  norm_num [c1final, update_positions, update_one, execute_trade, syncPos,
    initTrader, setPos, delPos, lookupPos, stop_loss_pct, tp_first_level,
    tp_second_level, tp_moonbag_level]

/-! ## Lemmas about Python `min`/`max` over dict items -/

theorem pyMin_go_spec :
    ∀ (t : List (String × ℚ)) (b : String × ℚ),
      ∃ c, List.foldl
          (fun acc x =>
            match acc with
            | none => some x
            | some b => if x.2 < b.2 then some x else some b)
          (some b) t = some c ∧
        c.2 ≤ b.2 ∧ (c = b ∨ c ∈ t) ∧ ∀ y ∈ t, c.2 ≤ y.2 := by
  intro t
  induction t with
  | nil => exact fun b => ⟨b, rfl, le_refl _, Or.inl rfl, by simp⟩
  | cons x t ih =>
    intro b
    rw [List.foldl_cons]
    show ∃ c, List.foldl _ (if x.2 < b.2 then some x else some b) t = some c ∧ _
    by_cases hx : x.2 < b.2
    · rw [if_pos hx]
      obtain ⟨c, hc, hle, hmem, hall⟩ := ih x
      refine ⟨c, hc, le_trans hle (le_of_lt hx), ?_, ?_⟩
      · rcases hmem with h | h
        · exact Or.inr (h ▸ List.mem_cons_self x t)
        · exact Or.inr (List.mem_cons_of_mem x h)
      · intro y hy
        rcases List.mem_cons.mp hy with h | h
        · exact h ▸ hle
        · exact hall y h
    · rw [if_neg hx]
      obtain ⟨c, hc, hle, hmem, hall⟩ := ih b
      refine ⟨c, hc, hle, ?_, ?_⟩
      · rcases hmem with h | h
        · exact Or.inl h
        · exact Or.inr (List.mem_cons_of_mem x h)
      · intro y hy
        rcases List.mem_cons.mp hy with h | h
        · exact h ▸ le_trans hle (le_of_not_lt hx)
        · exact hall y h

theorem pyMax_go_spec :
    ∀ (t : List (String × ℚ)) (b : String × ℚ),
      ∃ c, List.foldl
          (fun acc x =>
            match acc with
            | none => some x
            | some b => if b.2 < x.2 then some x else some b)
          (some b) t = some c ∧
        b.2 ≤ c.2 ∧ (c = b ∨ c ∈ t) ∧ ∀ y ∈ t, y.2 ≤ c.2 := by
  intro t
  induction t with
  | nil => exact fun b => ⟨b, rfl, le_refl _, Or.inl rfl, by simp⟩
  | cons x t ih =>
    intro b
    rw [List.foldl_cons]
    show ∃ c, List.foldl _ (if b.2 < x.2 then some x else some b) t = some c ∧ _
    by_cases hx : b.2 < x.2
    · rw [if_pos hx]
      obtain ⟨c, hc, hle, hmem, hall⟩ := ih x
      refine ⟨c, hc, le_trans (le_of_lt hx) hle, ?_, ?_⟩
      · rcases hmem with h | h
        · exact Or.inr (h ▸ List.mem_cons_self x t)
        · exact Or.inr (List.mem_cons_of_mem x h)
      · intro y hy
        rcases List.mem_cons.mp hy with h | h
        · exact h ▸ hle
        · exact hall y h
    · rw [if_neg hx]
      obtain ⟨c, hc, hle, hmem, hall⟩ := ih b
      refine ⟨c, hc, hle, ?_, ?_⟩
      · rcases hmem with h | h
        · exact Or.inl h
        · exact Or.inr (List.mem_cons_of_mem x h)
      · intro y hy
        rcases List.mem_cons.mp hy with h | h
        · exact h ▸ le_trans (le_of_not_lt hx) hle
        · exact hall y h

theorem pyMin_spec (l : List (String × ℚ)) (c : String × ℚ) (h : pyMin l = some c) :
    c ∈ l ∧ ∀ y ∈ l, c.2 ≤ y.2 := by
  cases l with
  | nil => simp [pyMin] at h
  | cons a t =>
    obtain ⟨c', hc', hle, hmem, hall⟩ := pyMin_go_spec t a
    rw [show pyMin (a :: t) = List.foldl _ (some a) t from rfl, hc'] at h
    obtain rfl : c' = c := Option.some.inj h
    refine ⟨?_, ?_⟩
    · rcases hmem with h | h
      · exact h ▸ List.mem_cons_self a t
      · exact List.mem_cons_of_mem a h
    · intro y hy
      rcases List.mem_cons.mp hy with h | h
      · exact h ▸ hle
      · exact hall y h

theorem pyMax_spec (l : List (String × ℚ)) (c : String × ℚ) (h : pyMax l = some c) :
    c ∈ l ∧ ∀ y ∈ l, y.2 ≤ c.2 := by
  cases l with
  | nil => simp [pyMax] at h
  | cons a t =>
    obtain ⟨c', hc', hle, hmem, hall⟩ := pyMax_go_spec t a
    rw [show pyMax (a :: t) = List.foldl _ (some a) t from rfl, hc'] at h
    obtain rfl : c' = c := Option.some.inj h
    refine ⟨?_, ?_⟩
    · rcases hmem with h | h
      · exact h ▸ List.mem_cons_self a t
      · exact List.mem_cons_of_mem a h
    · intro y hy
      rcases List.mem_cons.mp hy with h | h
      · exact h ▸ hle
      · exact hall y h

theorem pyMin_isSome (a : String × ℚ) (t : List (String × ℚ)) :
    ∃ c, pyMin (a :: t) = some c := by
  obtain ⟨c, hc, -, -, -⟩ := pyMin_go_spec t a
  exact ⟨c, hc⟩

theorem pyMax_isSome (a : String × ℚ) (t : List (String × ℚ)) :
    ∃ c, pyMax (a :: t) = some c := by
  obtain ⟨c, hc, -, -, -⟩ := pyMax_go_spec t a
  exact ⟨c, hc⟩

theorem pyMin_go_first :
    ∀ (t : List (String × ℚ)) (b c : String × ℚ),
      List.foldl
          (fun acc x =>
            match acc with
            | none => some x
            | some b => if x.2 < b.2 then some x else some b)
          (some b) t = some c →
      List.find? (fun y => decide (y.2 ≤ c.2)) (b :: t) = some c := by
  intro t
  induction t with
  | nil =>
    intro b c h
    obtain rfl : b = c := Option.some.inj h
    exact List.find?_cons_of_pos _ (by simp)
  | cons x t ih =>
    intro b c hh
    rw [List.foldl_cons] at hh
    have h : List.foldl
        (fun acc x =>
          match acc with
          | none => some x
          | some b => if x.2 < b.2 then some x else some b)
        (if x.2 < b.2 then some x else some b) t = some c := hh
    by_cases hx : x.2 < b.2
    · rw [if_pos hx] at h
      obtain ⟨c', hc', hle, -, -⟩ := pyMin_go_spec t x
      rw [Option.some.inj (hc'.symm.trans h)] at hle
      have hbc : ¬b.2 ≤ c.2 := not_le.mpr (lt_of_le_of_lt hle hx)
      rw [List.find?_cons_of_neg _ (by simpa using hbc)]
      exact ih x c h
    · rw [if_neg hx] at h
      obtain ⟨c', hc', hle, -, -⟩ := pyMin_go_spec t b
      rw [Option.some.inj (hc'.symm.trans h)] at hle
      have hfind := ih b c h
      by_cases hbc : b.2 ≤ c.2
      · have hb : b = c := by
          have h2 := List.find?_cons_of_pos (p := fun y => decide (y.2 ≤ c.2))
            (a := b) t (by simpa using hbc)
          exact Option.some.inj (h2.symm.trans hfind)
        rw [List.find?_cons_of_pos _ (by simpa using hbc), hb]
      · have hcb : c.2 < b.2 := not_le.mp hbc
        have hxp : ¬x.2 ≤ c.2 := not_le.mpr (lt_of_lt_of_le hcb (le_of_not_lt hx))
        rw [List.find?_cons_of_neg _ (by simpa using hbc)]
        rw [List.find?_cons_of_neg _ (by simpa using hxp)]
        rw [List.find?_cons_of_neg _ (by simpa using hbc)] at hfind
        exact hfind

theorem pyMin_first (l : List (String × ℚ)) (c : String × ℚ) (h : pyMin l = some c) :
    List.find? (fun y => decide (y.2 ≤ c.2)) l = some c := by
  cases l with
  | nil => simp [pyMin] at h
  | cons a t => exact pyMin_go_first t a c h

theorem pyMax_go_first :
    ∀ (t : List (String × ℚ)) (b c : String × ℚ),
      List.foldl
          (fun acc x =>
            match acc with
            | none => some x
            | some b => if b.2 < x.2 then some x else some b)
          (some b) t = some c →
      List.find? (fun y => decide (c.2 ≤ y.2)) (b :: t) = some c := by
  intro t
  induction t with
  | nil =>
    intro b c h
    obtain rfl : b = c := Option.some.inj h
    exact List.find?_cons_of_pos _ (by simp)
  | cons x t ih =>
    intro b c hh
    rw [List.foldl_cons] at hh
    have h : List.foldl
        (fun acc x =>
          match acc with
          | none => some x
          | some b => if b.2 < x.2 then some x else some b)
        (if b.2 < x.2 then some x else some b) t = some c := hh
    by_cases hx : b.2 < x.2
    · rw [if_pos hx] at h
      obtain ⟨c', hc', hle, -, -⟩ := pyMax_go_spec t x
      rw [Option.some.inj (hc'.symm.trans h)] at hle
      have hbc : ¬c.2 ≤ b.2 := not_le.mpr (lt_of_lt_of_le hx hle)
      rw [List.find?_cons_of_neg _ (by simpa using hbc)]
      exact ih x c h
    · rw [if_neg hx] at h
      obtain ⟨c', hc', hle, -, -⟩ := pyMax_go_spec t b
      rw [Option.some.inj (hc'.symm.trans h)] at hle
      have hfind := ih b c h
      by_cases hbc : c.2 ≤ b.2
      · have hb : b = c := by
          have h2 := List.find?_cons_of_pos (p := fun y => decide (c.2 ≤ y.2))
            (a := b) t (by simpa using hbc)
          exact Option.some.inj (h2.symm.trans hfind)
        rw [List.find?_cons_of_pos _ (by simpa using hbc), hb]
      · have hcb : b.2 < c.2 := not_le.mp hbc
        have hxp : ¬c.2 ≤ x.2 := not_le.mpr (lt_of_le_of_lt (le_of_not_lt hx) hcb)
        rw [List.find?_cons_of_neg _ (by simpa using hbc)]
        rw [List.find?_cons_of_neg _ (by simpa using hxp)]
        rw [List.find?_cons_of_neg _ (by simpa using hbc)] at hfind
        exact hfind

theorem pyMax_first (l : List (String × ℚ)) (c : String × ℚ) (h : pyMax l = some c) :
    List.find? (fun y => decide (c.2 ≤ y.2)) l = some c := by
  cases l with
  | nil => simp [pyMax] at h
  | cons a t => exact pyMax_go_first t a c h

/-! ## Claims about the opportunity detector -/

/-- **C3.** Every opportunity `detect_pair` emits has its buy price ≤ sell
price; the buy venue is a venue of minimum price and the sell venue a
venue of maximum price in the quote map (the emission itself already
requires at least two venues). -/
theorem detector_buy_min_sell_max (m : List (String × ℚ)) (minp : ℚ) (opp : Opp)
    (h : detect_pair m minp = some opp) :
    opp.buy_price ≤ opp.sell_price ∧
    (opp.buy_dex, opp.buy_price) ∈ m ∧
    (opp.sell_dex, opp.sell_price) ∈ m ∧
    (∀ y ∈ m, opp.buy_price ≤ y.2 ∧ y.2 ≤ opp.sell_price) := by
  unfold detect_pair at h
  by_cases hlen : m.length < 2
  · rw [if_pos hlen] at h
    exact absurd h (by simp)
  · rw [if_neg hlen] at h
    cases hmn : pyMin m with
    | none => rw [hmn] at h; cases hmx : pyMax m <;> rw [hmx] at h <;> exact absurd h (by simp)
    | some mn =>
      cases hmx : pyMax m with
      | none => rw [hmn, hmx] at h; exact absurd h (by simp)
      | some mx =>
        rw [hmn, hmx] at h
        have h2 : (if minp ≤ ((mx.2 - mn.2) / mn.2) * 100 then
            some ({ buy_dex := mn.1, sell_dex := mx.1, buy_price := mn.2,
                    sell_price := mx.2,
                    profit_percentage := ((mx.2 - mn.2) / mn.2) * 100 } : Opp)
          else none) = some opp := h
        by_cases hp : minp ≤ ((mx.2 - mn.2) / mn.2) * 100
        · rw [if_pos hp] at h2
          obtain rfl : opp = ⟨mn.1, mx.1, mn.2, mx.2, ((mx.2 - mn.2) / mn.2) * 100⟩ :=
            (Option.some.inj h2).symm
          obtain ⟨hmnm, hmnle⟩ := pyMin_spec m mn hmn
          obtain ⟨hmxm, hmxle⟩ := pyMax_spec m mx hmx
          exact ⟨hmnle mx hmxm, hmnm, hmxm, fun y hy => ⟨hmnle y hy, hmxle y hy⟩⟩
        · rw [if_neg hp] at h2
          exact absurd h2 (by simp)

/-- **C3 witness.** On quotes `{X: 1, Y: 2}` with a 3% threshold, the
emitted opportunity buys at the minimum (X, 1) and sells at the maximum
(Y, 2). -/
theorem detector_buy_min_sell_max_witness :
    (detect_pair [("X", 1), ("Y", 2)] 3 =
      some { buy_dex := "X", sell_dex := "Y", buy_price := 1, sell_price := 2,
             profit_percentage := 100 }) ∧
    (1 : ℚ) ≤ 2 ∧
    (("X", (1 : ℚ)) ∈ [("X", (1 : ℚ)), ("Y", 2)]) ∧
    (("Y", (2 : ℚ)) ∈ [("X", (1 : ℚ)), ("Y", 2)]) :=
  ⟨by norm_num [detect_pair, pyMin, pyMax],
    (detector_buy_min_sell_max [("X", 1), ("Y", 2)] 3
      { buy_dex := "X", sell_dex := "Y", buy_price := 1, sell_price := 2,
        profit_percentage := 100 }
      (by norm_num [detect_pair, pyMin, pyMax])).1,
    (detector_buy_min_sell_max [("X", 1), ("Y", 2)] 3
      { buy_dex := "X", sell_dex := "Y", buy_price := 1, sell_price := 2,
        profit_percentage := 100 }
      (by norm_num [detect_pair, pyMin, pyMax])).2.1,
    (detector_buy_min_sell_max [("X", 1), ("Y", 2)] 3
      { buy_dex := "X", sell_dex := "Y", buy_price := 1, sell_price := 2,
        profit_percentage := 100 }
      (by norm_num [detect_pair, pyMin, pyMax])).2.2.1⟩

/-- Helper: an emitted opportunity is exactly the `pyMin`/`pyMax` pair. -/
theorem detect_pair_minmax (m : List (String × ℚ)) (minp : ℚ) (opp : Opp)
    (h : detect_pair m minp = some opp) :
    pyMin m = some (opp.buy_dex, opp.buy_price) ∧
    pyMax m = some (opp.sell_dex, opp.sell_price) := by
  unfold detect_pair at h
  by_cases hlen : m.length < 2
  · rw [if_pos hlen] at h
    exact absurd h (by simp)
  · rw [if_neg hlen] at h
    cases hmn : pyMin m with
    | none => rw [hmn] at h; cases hmx : pyMax m <;> rw [hmx] at h <;> exact absurd h (by simp)
    | some mn =>
      cases hmx : pyMax m with
      | none => rw [hmn, hmx] at h; exact absurd h (by simp)
      | some mx =>
        rw [hmn, hmx] at h
        have h2 : (if minp ≤ ((mx.2 - mn.2) / mn.2) * 100 then
            some ({ buy_dex := mn.1, sell_dex := mx.1, buy_price := mn.2,
                    sell_price := mx.2,
                    profit_percentage := ((mx.2 - mn.2) / mn.2) * 100 } : Opp)
          else none) = some opp := h
        by_cases hp : minp ≤ ((mx.2 - mn.2) / mn.2) * 100
        · rw [if_pos hp] at h2
          obtain rfl : opp = ⟨mn.1, mx.1, mn.2, mx.2, ((mx.2 - mn.2) / mn.2) * 100⟩ :=
            (Option.some.inj h2).symm
          exact ⟨rfl, rfl⟩
        · rw [if_neg hp] at h2
          exact absurd h2 (by simp)

/-- **C7 counterexample.** On `{B: 1, A: 1, C: 2}` the emitted opportunity
buys on "B", the venue quoted first, although "A" also attains the minimum
price and precedes "B" lexically (the detector takes no liquidity input at
all, so no liquidity tie-break can apply either): the claimed
higher-liquidity / lexical tie-break rule does not hold. -/
theorem tie_break_counterexample :
    detect_pair tieQuotes 1 =
      some { buy_dex := "B", sell_dex := "C", buy_price := 1, sell_price := 2,
             profit_percentage := 100 } ∧
    ("A", (1 : ℚ)) ∈ tieQuotes ∧
    (∀ y ∈ tieQuotes, (1 : ℚ) ≤ y.2) ∧
    "A" < "B" := by
  refine ⟨by norm_num [tieQuotes, detect_pair, pyMin, pyMax], by norm_num [tieQuotes],
    ?_, by rw [String.lt_iff_toList_lt]; decide⟩
  intro y hy
  fin_cases hy <;> norm_num

/-- **C7 (amended).** Ties at the minimum (maximum) price are broken by
iteration order of the quote map: the buy venue is the *first* entry whose
price is ≤ the minimum (`List.find?`), the sell venue the first entry
whose price is ≥ the maximum; and detection is a pure function, returning
identical output on repeated calls with the same inputs. -/
theorem tie_break_first_in_order (m : List (String × ℚ)) (minp : ℚ) (opp : Opp)
    (h : detect_pair m minp = some opp) :
    List.find? (fun y => decide (y.2 ≤ opp.buy_price)) m =
      some (opp.buy_dex, opp.buy_price) ∧
    List.find? (fun y => decide (opp.sell_price ≤ y.2)) m =
      some (opp.sell_dex, opp.sell_price) ∧
    detect_pair m minp = detect_pair m minp := by
  obtain ⟨hmn, hmx⟩ := detect_pair_minmax m minp opp h
  exact ⟨pyMin_first m _ hmn, pyMax_first m _ hmx, rfl⟩

/-- **C7 witness.** On the tie map `{B: 1, A: 1, C: 2}`, the first venue
attaining the minimum price is "B" and the detector indeed buys there. -/
theorem tie_break_first_in_order_witness :
    (detect_pair tieQuotes 1 =
      some { buy_dex := "B", sell_dex := "C", buy_price := 1, sell_price := 2,
             profit_percentage := 100 }) ∧
    List.find? (fun y => decide (y.2 ≤ (1 : ℚ))) tieQuotes = some ("B", 1) :=
  ⟨by norm_num [tieQuotes, detect_pair, pyMin, pyMax],
    (tie_break_first_in_order tieQuotes 1
      { buy_dex := "B", sell_dex := "C", buy_price := 1, sell_price := 2,
        profit_percentage := 100 }
      (by norm_num [tieQuotes, detect_pair, pyMin, pyMax])).1⟩

/-- **C5 counterexample.** On quotes `{X: 1, Y: 2}` the detector emits the
opportunity buying on "X" even though "X" has no liquidity entry (its
fetch failed; `get_liquidity_info` reports only "Y"): emission never
consults `get_liquidity_info` or any liquidity floor. -/
theorem liquidity_floor_counterexample :
    detect_pair [("X", 1), ("Y", 2)] 1 =
      some { buy_dex := "X", sell_dex := "Y", buy_price := 1, sell_price := 2,
             profit_percentage := 100 } ∧
    get_liquidity_info illiquidFetch = [("Y", 5000)] := by
  constructor
  · norm_num [detect_pair, pyMin, pyMax]
  · norm_num [get_liquidity_info, illiquidFetch]

/-- **C5 (amended).** `detect_pair` emits an opportunity exactly when the
quote map has at least two venues and the computed profit percentage
reaches the threshold — venue liquidity is not part of the emission
condition. -/
theorem emission_ignores_liquidity (m : List (String × ℚ)) (minp : ℚ) :
    (detect_pair m minp).isSome = true ↔
      (2 ≤ m.length ∧ ∃ mn mx, pyMin m = some mn ∧ pyMax m = some mx ∧
        minp ≤ ((mx.2 - mn.2) / mn.2) * 100) := by
  by_cases hlen : m.length < 2
  · simp only [detect_pair, if_pos hlen]
    simp [not_le.mpr hlen]
  · have hlen2 : 2 ≤ m.length := not_lt.mp hlen
    cases m with
    | nil => exact absurd hlen2 (by simp)
    | cons a t =>
      obtain ⟨mn, hmn⟩ := pyMin_isSome a t
      obtain ⟨mx, hmx⟩ := pyMax_isSome a t
      constructor
      · intro hs
        refine ⟨hlen2, mn, mx, hmn, hmx, ?_⟩
        unfold detect_pair at hs
        rw [if_neg hlen, hmn, hmx] at hs
        have hs2 : (if minp ≤ ((mx.2 - mn.2) / mn.2) * 100 then
            some ({ buy_dex := mn.1, sell_dex := mx.1, buy_price := mn.2,
                    sell_price := mx.2,
                    profit_percentage := ((mx.2 - mn.2) / mn.2) * 100 } : Opp)
          else none).isSome = true := hs
        by_cases hp : minp ≤ ((mx.2 - mn.2) / mn.2) * 100
        · exact hp
        · rw [if_neg hp] at hs2
          exact absurd hs2 (by simp)
      · rintro ⟨-, mn', mx', hmn', hmx', hp⟩
        rw [hmn] at hmn'
        rw [hmx] at hmx'
        obtain rfl : mn = mn' := Option.some.inj hmn'
        obtain rfl : mx = mx' := Option.some.inj hmx'
        unfold detect_pair
        rw [if_neg hlen, hmn, hmx]
        show (if minp ≤ ((mx.2 - mn.2) / mn.2) * 100 then
            some ({ buy_dex := mn.1, sell_dex := mx.1, buy_price := mn.2,
                    sell_price := mx.2,
                    profit_percentage := ((mx.2 - mn.2) / mn.2) * 100 } : Opp)
          else none).isSome = true
        rw [if_pos hp]
        rfl

/-! ## Claim about price aggregation (C8) -/

theorem get_pair_prices_go (results : List (String × Except String ℚ)) :
    ∀ (acc : List (String × ℚ)) (x : String × ℚ),
      x ∈ results.foldl
          (fun acc r =>
            match r.2 with
            | .ok price => if 0 < price then acc ++ [(r.1, price)] else acc
            | .error _ => acc)
          acc ↔
        x ∈ acc ∨ ((x.1, Except.ok x.2) ∈ results ∧ 0 < x.2) := by
  induction results with
  | nil => simp
  | cons r t ih =>
    intro acc x
    obtain ⟨rv, rr⟩ := r
    rw [List.foldl_cons]
    cases rr with
    | error e =>
      show x ∈ List.foldl _ acc t ↔ _
      rw [ih]
      obtain ⟨xv, xq⟩ := x
      simp only [List.mem_cons, Prod.mk.injEq]
      constructor
      · rintro (h | ⟨hm, hq⟩)
        · exact Or.inl h
        · exact Or.inr ⟨Or.inr hm, hq⟩
      · rintro (h | ⟨⟨rfl, he⟩ | hm, hq⟩)
        · exact Or.inl h
        · exact absurd he (by simp)
        · exact Or.inr ⟨hm, hq⟩
    | ok p =>
      show x ∈ List.foldl _ (if 0 < p then acc ++ [(rv, p)] else acc) t ↔ _
      by_cases hp : 0 < p
      · rw [if_pos hp, ih]
        obtain ⟨xv, xq⟩ := x
        simp only [List.mem_append, List.mem_cons, List.mem_singleton,
          List.not_mem_nil, or_false, Prod.mk.injEq, Except.ok.injEq]
        constructor
        · rintro ((h | ⟨rfl, rfl⟩) | ⟨hm, hq⟩)
          · exact Or.inl h
          · exact Or.inr ⟨Or.inl ⟨rfl, rfl⟩, hp⟩
          · exact Or.inr ⟨Or.inr hm, hq⟩
        · rintro (h | ⟨⟨rfl, rfl⟩ | hm, hq⟩)
          · exact Or.inl (Or.inl h)
          · exact Or.inl (Or.inr ⟨rfl, rfl⟩)
          · exact Or.inr ⟨hm, hq⟩
      · rw [if_neg hp, ih]
        obtain ⟨xv, xq⟩ := x
        simp only [List.mem_cons, Prod.mk.injEq, Except.ok.injEq]
        constructor
        · rintro (h | ⟨hm, hq⟩)
          · exact Or.inl h
          · exact Or.inr ⟨Or.inr hm, hq⟩
        · rintro (h | ⟨⟨rfl, rfl⟩ | hm, hq⟩)
          · exact Or.inl h
          · exact absurd hq hp
          · exact Or.inr ⟨hm, hq⟩

/-- **C8.** A venue appears in the per-venue price map returned by
`get_all_prices` exactly when its fetch succeeded with a positive price:
a venue whose fetch raised, or which returned a non-positive price,
contributes no entry, while every other venue's quote is still returned —
the aggregation is total and never aborts because of one failing venue. -/
theorem partial_failure_tolerance (results : List (String × Except String ℚ))
    (v : String) (q : ℚ) :
    (v, q) ∈ get_pair_prices results ↔
      ((v, Except.ok q) ∈ results ∧ 0 < q) := by
  rw [show get_pair_prices results = results.foldl _ [] from rfl,
    get_pair_prices_go results [] (v, q)]
  simp

/-! ## Claim about the risk scorer (C2) -/

/-- **C2 counterexample.** With weights (2, −0.25, −0.25, −0.25, −0.25),
which sum to 1.0, and component scores (100, 0, 0, 0, 0), each in
[0, 100], the weighted total is 200 ∉ [0, 100]: the claim fails for weight
configurations that merely sum to 1.0. -/
theorem risk_score_counterexample :
    (spiked_weights.volatility + spiked_weights.liquidity + spiked_weights.spread +
      spiked_weights.volume + spiked_weights.smart_contract = 1) ∧
    ((0 : ℚ) ≤ 100 ∧ (100 : ℚ) ≤ 100) ∧ ((0 : ℚ) ≤ 0 ∧ (0 : ℚ) ≤ 100) ∧
    total_risk spiked_weights 100 0 0 0 0 = 200 ∧
    ¬(total_risk spiked_weights 100 0 0 0 0 ≤ 100) := by
  norm_num [spiked_weights, total_risk]

/-- **C2 (amended).** For every weight configuration whose five weights
are *nonnegative* and sum to 1.0, and all five component risk scores in
[0, 100], the weighted total risk of `calculate_risk_score` lies in
[0, 100]. -/
theorem risk_score_bounds (w : RiskWeights) (v l sp vo sc : ℚ)
    (hwv : 0 ≤ w.volatility) (hwl : 0 ≤ w.liquidity) (hwsp : 0 ≤ w.spread)
    (hwvo : 0 ≤ w.volume) (hwsc : 0 ≤ w.smart_contract)
    (hsum : w.volatility + w.liquidity + w.spread + w.volume + w.smart_contract = 1)
    (hv : 0 ≤ v ∧ v ≤ 100) (hl : 0 ≤ l ∧ l ≤ 100) (hsp : 0 ≤ sp ∧ sp ≤ 100)
    (hvo : 0 ≤ vo ∧ vo ≤ 100) (hsc : 0 ≤ sc ∧ sc ≤ 100) :
    0 ≤ total_risk w v l sp vo sc ∧ total_risk w v l sp vo sc ≤ 100 := by
  unfold total_risk
  constructor
  · have h1 := mul_nonneg hv.1 hwv
    have h2 := mul_nonneg hl.1 hwl
    have h3 := mul_nonneg hsp.1 hwsp
    have h4 := mul_nonneg hvo.1 hwvo
    have h5 := mul_nonneg hsc.1 hwsc
    linarith
  · have h1 := mul_le_mul_of_nonneg_right hv.2 hwv
    have h2 := mul_le_mul_of_nonneg_right hl.2 hwl
    have h3 := mul_le_mul_of_nonneg_right hsp.2 hwsp
    have h4 := mul_le_mul_of_nonneg_right hvo.2 hwvo
    have h5 := mul_le_mul_of_nonneg_right hsc.2 hwsc
    nlinarith [hsum]

/-- **C2 witness.** With the default weights and the component scores of
the spec's Scenario D (90, 90, 80, 90, 90), the total 88.5 lies in
[0, 100]. -/
theorem risk_score_bounds_witness :
    (total_risk default_weights 90 90 80 90 90 = 177 / 2) ∧
    0 ≤ total_risk default_weights 90 90 80 90 90 ∧
    total_risk default_weights 90 90 80 90 90 ≤ 100 :=
  ⟨by norm_num [total_risk, default_weights],
    (risk_score_bounds default_weights 90 90 80 90 90
      (by norm_num [default_weights]) (by norm_num [default_weights])
      (by norm_num [default_weights]) (by norm_num [default_weights])
      (by norm_num [default_weights]) (by norm_num [default_weights])
      (by norm_num) (by norm_num) (by norm_num) (by norm_num) (by norm_num)).1,
    (risk_score_bounds default_weights 90 90 80 90 90
      (by norm_num [default_weights]) (by norm_num [default_weights])
      (by norm_num [default_weights]) (by norm_num [default_weights])
      (by norm_num [default_weights]) (by norm_num [default_weights])
      (by norm_num) (by norm_num) (by norm_num) (by norm_num) (by norm_num)).2⟩

/-! ## Claim about the trailing stop (C6) -/

/-- **C6 counterexample.** A position entered at 100 whose high was 120
(never reaching the +50% take-profit level, so no profitable tier was ever
realized) and now trades at 95: only the trailing-stop condition holds
((120−95)/120 ≈ 20.8% ≥ 15%), neither take-profit nor stop-loss nor max
hold do — yet `should_exit` is true.  A trailing-stop retracement alone
does close a position with no tier fired. -/
theorem trailing_stop_counterexample :
    analyze_exit_opportunity c6cfg 100 95 120 100 =
      { should_exit := true, take_profit_hit := false, stop_loss_hit := false,
        trailing_stop_hit := true, max_hold_hit := false } := by
  norm_num [analyze_exit_opportunity, c6cfg, ExitAnalysis.mk.injEq]

/-- **C6 (amended).** The trailing-stop condition
`(trailing_high − current) / trailing_high ≥ trailingStopPct` triggers an
exit whenever it holds, regardless of whether any profitable take-profit
tier has been realized: `analyze_exit_opportunity` has no tier gating. -/
theorem trailing_stop_ungated (cfg : ExitConfig)
    (entry_price current_price trailing_high hold_time : ℚ)
    (h : cfg.trailing_stop ≤ (trailing_high - current_price) / trailing_high) :
    (analyze_exit_opportunity cfg entry_price current_price trailing_high
      hold_time).should_exit = true := by
  simp only [analyze_exit_opportunity, decide_eq_true h, Bool.or_true, Bool.true_or]

/-- **C6 witness.** With the counterexample configuration, entry 100,
current 90, high 120 and hold time 0, the trailing condition holds
(30/120 = 25% ≥ 15%) and the analyzer requests an exit. -/
theorem trailing_stop_ungated_witness :
    (c6cfg.trailing_stop ≤ ((120 : ℚ) - 90) / 120) ∧
    (analyze_exit_opportunity c6cfg 100 90 120 0).should_exit = true :=
  ⟨by norm_num [c6cfg],
    trailing_stop_ungated c6cfg 100 90 120 0 (by norm_num [c6cfg])⟩

end MemeHunter
